import Mathlib

/-!
# gopeed REST control surface

A shallow embedding of `pkg/rest/model/result.go` and of the handlers of
`pkg/rest/api.go`, with the properties of the control-surface contract.

Conventions of the embedding:
* a byte is a `Nat` below 256, a byte string is a `List Nat`;
* Go's `int` is the 64-bit two's complement integer: arithmetic is done in
  `Int` and wrapped by `wrapInt` after every operation;
* a handler returns what it did: the calls made into the engine, in order,
  and the envelopes written to the response, in order, or a run-time panic.
-/

namespace Gopeed

/-! ## Library functions used by `result.go` -/

/-- Addition of 32-bit words. -/
def add32 (a b : Nat) : Nat := (a + b) % 4294967296

/-- Rotation of a 32-bit word to the right by `n` bits. -/
def rotr32 (x n : Nat) : Nat :=
  ((x >>> n) ||| (x <<< (32 - n))) % 4294967296

/-- Bitwise complement of a 32-bit word. -/
def not32 (x : Nat) : Nat := 4294967295 - x % 4294967296

/-- The round constants of SHA-256 (FIPS 180-4, section 4.2.2). -/
def sha256K : List Nat :=
  [0x428a2f98, 0x71374491, 0xb5c0fbcf, 0xe9b5dba5, 0x3956c25b, 0x59f111f1, 0x923f82a4, 0xab1c5ed5,
   0xd807aa98, 0x12835b01, 0x243185be, 0x550c7dc3, 0x72be5d74, 0x80deb1fe, 0x9bdc06a7, 0xc19bf174,
   0xe49b69c1, 0xefbe4786, 0x0fc19dc6, 0x240ca1cc, 0x2de92c6f, 0x4a7484aa, 0x5cb0a9dc, 0x76f988da,
   0x983e5152, 0xa831c66d, 0xb00327c8, 0xbf597fc7, 0xc6e00bf3, 0xd5a79147, 0x06ca6351, 0x14292967,
   0x27b70a85, 0x2e1b2138, 0x4d2c6dfc, 0x53380d13, 0x650a7354, 0x766a0abb, 0x81c2c92e, 0x92722c85,
   0xa2bfe8a1, 0xa81a664b, 0xc24b8b70, 0xc76c51a3, 0xd192e819, 0xd6990624, 0xf40e3585, 0x106aa070,
   0x19a4c116, 0x1e376c08, 0x2748774c, 0x34b0bcb5, 0x391c0cb3, 0x4ed8aa4a, 0x5b9cca4f, 0x682e6ff3,
   0x748f82ee, 0x78a5636f, 0x84c87814, 0x8cc70208, 0x90befffa, 0xa4506ceb, 0xbef9a3f7, 0xc67178f2]

/-- The eight working words of SHA-256. -/
structure Sha256State where
  a : Nat
  b : Nat
  c : Nat
  d : Nat
  e : Nat
  f : Nat
  g : Nat
  h : Nat
deriving DecidableEq, Repr

/-- The initial hash value of SHA-256 (FIPS 180-4, section 5.3.3). -/
def sha256Init : Sha256State :=
  ⟨0x6a09e667, 0xbb67ae85, 0x3c6ef372, 0xa54ff53a, 0x510e527f, 0x9b05688c, 0x1f83d9ab, 0x5be0cd19⟩

/-- Big-endian bytes of a 32-bit word. -/
def word32Bytes (w : Nat) : List Nat :=
  [w / 16777216 % 256, w / 65536 % 256, w / 256 % 256, w % 256]

/-- Big-endian bytes of a 64-bit word. -/
def word64Bytes (w : Nat) : List Nat :=
  word32Bytes (w / 4294967296 % 4294967296) ++ word32Bytes (w % 4294967296)

/-- The message followed by the bit `1`, zero bits and the 64-bit message
length in bits, a multiple of 64 bytes long. -/
def sha256Pad (msg : List Nat) : List Nat :=
  msg ++ [128] ++ List.replicate ((119 - msg.length % 64) % 64) 0 ++ word64Bytes (msg.length * 8)

/-- The big-endian 32-bit words of a byte string, four bytes at a time. -/
def bytesToWords : List Nat → List Nat
  | b0 :: b1 :: b2 :: b3 :: rest =>
      (b0 * 16777216 + b1 * 65536 + b2 * 256 + b3) :: bytesToWords rest
  | _ => []

/-- The message schedule: `n` more words appended to the list `w`, which is
kept newest first. -/
def sha256Schedule : Nat → List Nat → List Nat
  | 0, w => w
  | n + 1, w =>
      let w2 := w.getD 1 0
      let w7 := w.getD 6 0
      let w15 := w.getD 14 0
      let w16 := w.getD 15 0
      let s0 := rotr32 w15 7 ^^^ rotr32 w15 18 ^^^ (w15 >>> 3)
      let s1 := rotr32 w2 17 ^^^ rotr32 w2 19 ^^^ (w2 >>> 10)
      sha256Schedule n (add32 (add32 (add32 s1 w7) s0) w16 :: w)

/-- One round of the compression function. -/
def sha256Round (s : Sha256State) (kw : Nat × Nat) : Sha256State :=
  let S1 := rotr32 s.e 6 ^^^ rotr32 s.e 11 ^^^ rotr32 s.e 25
  let ch := (s.e &&& s.f) ^^^ (not32 s.e &&& s.g)
  let t1 := add32 (add32 (add32 (add32 s.h S1) ch) kw.1) kw.2
  let S0 := rotr32 s.a 2 ^^^ rotr32 s.a 13 ^^^ rotr32 s.a 22
  let maj := (s.a &&& s.b) ^^^ (s.a &&& s.c) ^^^ (s.b &&& s.c)
  let t2 := add32 S0 maj
  ⟨add32 t1 t2, s.a, s.b, s.c, add32 s.d t1, s.e, s.f, s.g⟩

/-- The compression of one 64-byte block, given as 16 words. -/
def sha256Block (s : Sha256State) (block : List Nat) : Sha256State :=
  let w := (sha256Schedule 48 block.reverse).reverse
  let t := (sha256K.zip w).foldl sha256Round s
  ⟨add32 s.a t.a, add32 s.b t.b, add32 s.c t.c, add32 s.d t.d,
   add32 s.e t.e, add32 s.f t.f, add32 s.g t.g, add32 s.h t.h⟩

/-- The blocks of sixteen words of a word list. -/
def sha256Blocks : Nat → List Nat → List (List Nat)
  | 0, _ => []
  | n + 1, ws => ws.take 16 :: sha256Blocks n (ws.drop 16)

/-- Go's `sha256.Sum256`: the SHA-256 digest, 32 bytes. -/
def Sum256 (data : List Nat) : List Nat :=
  let ws := bytesToWords (sha256Pad data)
  let s := (sha256Blocks (ws.length / 16) ws).foldl sha256Block sha256Init
  word32Bytes s.a ++ word32Bytes s.b ++ word32Bytes s.c ++ word32Bytes s.d ++
  word32Bytes s.e ++ word32Bytes s.f ++ word32Bytes s.g ++ word32Bytes s.h

/-- The lowercase hexadecimal digit of a value below 16. -/
def hexDigit (n : Nat) : Char :=
  "0123456789abcdef".toList.getD n '0'

/-- Go's `hex.EncodeToString`: two lowercase hexadecimal digits per byte. -/
def hexEncodeToString (bs : List Nat) : String :=
  String.mk (bs.flatMap fun b => [hexDigit (b / 16 % 16), hexDigit (b % 16)])

/-- Go's `json.Marshal` applied to an interface value: the nil interface is
encoded as the JSON text `null`, any other value by the encoder `enc` of its
dynamic type, which may fail. -/
def jsonMarshal {V : Type} (enc : V → Option (List Nat)) : Option V → Option (List Nat)
  | none => some [110, 117, 108, 108]
  | some v => enc v

/-! ## `pkg/rest/model/result.go` -/

abbrev RespCode := Int

def CodeOk : RespCode := 0
/-- CodeError is the common error code. -/
def CodeError : RespCode := 1000
/-- CodeUnauthorized is the error code for unauthorized. -/
def CodeUnauthorized : RespCode := 1001
/-- CodeInvalidParam is the error code for invalid parameter. -/
def CodeInvalidParam : RespCode := 1002
/-- CodeTaskNotFound is the error code for task not found. -/
def CodeTaskNotFound : RespCode := 2001

/-- The response envelope `Result[T]`. -/
structure Result (T : Type) where
  Code : RespCode
  Msg : String
  Data : T
  Hash : String
deriving DecidableEq, Repr

/-- The function `generateHash`; `marshal` is `json.Marshal` on the type of
`data`, `none` standing for a serialization error. -/
def generateHash {T : Type} (marshal : T → Option (List Nat)) (data : T) : String :=
  match marshal data with
  | none => ""
  | some bytes => hexEncodeToString (Sum256 bytes)

/-- The function `NewOkResult`. -/
def NewOkResult {T : Type} (marshal : T → Option (List Nat)) (data : T) : Result T :=
  let hash := generateHash marshal data
  { Code := CodeOk, Msg := "", Data := data, Hash := hash }

/-- The function `NewNilResult`; a value of Go's `any` is an `Option V`, the
nil interface being `none`. -/
def NewNilResult {V : Type} (enc : V → Option (List Nat)) : Result (Option V) :=
  { Code := CodeOk, Msg := "", Data := none, Hash := generateHash (jsonMarshal enc) none }

/-- The function `NewErrorResult`; `code` is the variadic argument. -/
def NewErrorResult {V : Type} (msg : String) (code : List RespCode) : Result (Option V) :=
  let c := match code with
    | [] => CodeError
    | c0 :: _ => c0
  { Code := c, Msg := msg, Data := none, Hash := "" }

/-! ## Library functions used by `api.go` -/

/-- Go's `int` on a 64-bit platform: the two's complement value of `x`. -/
def wrapInt (x : Int) : Int :=
  (x + 9223372036854775808) % 18446744073709551616 - 9223372036854775808

/-- Go's integer division, which truncates towards zero. -/
def goDiv (a b : Int) : Int := wrapInt (Int.tdiv a b)

/-- The value of a decimal digit, `none` for any other character. -/
def digitVal (c : Char) : Option Nat :=
  if 48 ≤ c.toNat ∧ c.toNat ≤ 57 then some (c.toNat - 48) else none

/-- The value of a run of decimal digits read onto the accumulator `acc`,
`none` when a character is not a digit. -/
def parseDigits : List Char → Nat → Option Nat
  | [], acc => some acc
  | c :: cs, acc =>
      match digitVal c with
      | none => none
      | some d => parseDigits cs (acc * 10 + d)

/-- The digits of `strconv.Atoi` after the sign has been read: one or more
decimal digits whose value, negated when `neg`, fits in a 64-bit `int`. -/
def atoiDigits (neg : Bool) (ds : List Char) : Option Int :=
  match ds with
  | [] => none
  | _ :: _ =>
      match parseDigits ds 0 with
      | none => none
      | some n =>
          if neg then
            if n ≤ 9223372036854775808 then some (-(n : Int)) else none
          else
            if n < 9223372036854775808 then some (n : Int) else none

/-- Go's `strconv.Atoi` on a 64-bit platform: an optional sign followed by
one or more decimal digits, with a value that fits in an `int`. `none` is a
non-nil error (syntax or range). -/
def Atoi (s : String) : Option Int :=
  match s.toList with
  | '-' :: rest => atoiDigits true rest
  | '+' :: rest => atoiDigits false rest
  | cs => atoiDigits false cs

/-- The slice expression `s[low:high]` of a slice whose capacity is its
length: `none` is the run-time panic "slice bounds out of range". -/
def goSlice {α : Type} (s : List α) (low high : Int) : Option (List α) :=
  if 0 ≤ low ∧ low ≤ high ∧ high ≤ (s.length : Int) then
    some ((s.drop low.toNat).take (high.toNat - low.toNat))
  else none

/-! ## `pkg/rest/api.go`: requests, the engine and what a handler does -/

/-- The fields of `download.TaskFilter` that `api.go` sets; a status is a
string. -/
structure TaskFilter where
  IDs : List String
  Statuses : List String
  NotStatuses : List String
deriving DecidableEq, Repr

/-- What a handler reads from `*http.Request`: the route variables
`mux.Vars(r)`, the query values `r.URL.Query().Get`, and the outcome of
`r.ParseForm()` with the resulting `r.Form`. A missing key reads as `""`,
respectively as the empty list. -/
structure Request where
  vars : String → String
  query : String → String
  form : Except String (String → List String)

/-- The result of the engine call `Create` or `CreateDirect`. -/
abbrev CreateResult := Except String String

/-- The engine `Downloader` as far as the handlers below call it. An
operation that returns only an `error` gives `none` for a nil error. -/
structure Downloader (Task Req Opt Cfg Settings : Type) where
  Create : String → Opt → CreateResult
  CreateDirect : Req → Opt → CreateResult
  GetTask : String → Option Task
  GetTasksByFilter : TaskFilter → List Task
  PutConfig : Cfg → Option String
  UpdateExtensionSettings : String → Settings → Option String
  SwitchExtension : String → Bool → Option String

/-- A call made into the engine. -/
inductive Call (Req Opt Cfg Settings : Type)
  | Create (rid : String) (opt : Opt)
  | CreateDirect (req : Req) (opt : Opt)
  | GetTask (id : String)
  | GetTasksByFilter (filter : TaskFilter)
  | PutConfig (cfg : Cfg)
  | UpdateExtensionSettings (identity : String) (settings : Settings)
  | SwitchExtension (identity : String) (status : Bool)
deriving DecidableEq, Repr

/-- An envelope passed to `WriteJson(w, v)`, which sends it as the JSON body
of the response: `ok` is an envelope `Result[T]` with a payload, `any` an
envelope `Result[any]`. -/
inductive Written (T V : Type)
  | ok (r : Result T)
  | any (r : Result (Option V))
deriving DecidableEq, Repr

/-- The `Code` of a written envelope. -/
def Written.code {T V : Type} : Written T V → RespCode
  | .ok r => r.Code
  | .any r => r.Code

/-- The `Msg` of a written envelope. -/
def Written.msg {T V : Type} : Written T V → String
  | .ok r => r.Msg
  | .any r => r.Msg

/-- What one run of a handler did: the engine calls, the envelopes written,
and whether the run ended in a run-time panic. -/
structure Handled (C W : Type) where
  calls : List C
  written : List W
  panicked : Bool
deriving DecidableEq, Repr

/-- The outcome of `ReadJson(r, w, &v)`, an input of the handlers: either the
value decoded from the request body (the call returns true), or a failure
(the call returns false) together with whatever `ReadJson` itself wrote to
the response. -/
inductive ReadJson (T W : Type)
  | decoded (v : T)
  | failed (wrote : List W)

/-- Modelled from the spec: the request body `model.CreateTask`, fields
`rid`, `req` (a pointer, `none` when nil) and `opt`. -/
structure CreateTaskReq (Req Opt : Type) where
  Rid : String
  Req : Option Req
  Opt : Opt

/-- Modelled from the spec: the request body `model.UpdateExtensionSettings`. -/
structure UpdateExtensionSettingsReq (Settings : Type) where
  Settings : Settings

/-- Modelled from the spec: the request body `model.SwitchExtension`. -/
structure SwitchExtensionReq where
  Status : Bool

/-- The response map built by `GetTasks`. -/
structure TasksResponse (Task : Type) where
  tasks : List Task
  total : Int
  page : Int
  pageSize : Int
  totalPages : Int
deriving DecidableEq, Repr

section Handlers

variable {Task Req Opt Cfg Settings V : Type}

/-- The function `convertStatues`. -/
def convertStatues (statues : List String) : List String :=
  statues.foldl (fun result status => result ++ [status]) []

/-- The function `parseFilter`: the filter, or the error envelope. -/
def parseFilter (r : Request) : Except (Result (Option V)) TaskFilter :=
  match r.form with
  | .error err => .error (NewErrorResult err [])
  | .ok form =>
      .ok { IDs := form "id",
            Statuses := convertStatues (form "status"),
            NotStatuses := convertStatues (form "notStatus") }

/-- The handler `CreateTask`, after `ReadJson` has decoded `req`. -/
def CreateTask (d : Downloader Task Req Opt Cfg Settings)
    (marshal : String → Option (List Nat)) (rj : ReadJson (CreateTaskReq Req Opt) (Written String V)) :
    Handled (Call Req Opt Cfg Settings) (Written String V) :=
  match rj with
  | .failed wrote => ⟨[], wrote, false⟩
  | .decoded req =>
      let finish (call : Call Req Opt Cfg Settings) (res : CreateResult) :
          Handled (Call Req Opt Cfg Settings) (Written String V) :=
        match res with
        | .error err => ⟨[call], [.any (NewErrorResult err [])], false⟩
        | .ok taskId => ⟨[call], [.ok (NewOkResult marshal taskId)], false⟩
      if req.Rid ≠ "" then
        finish (.Create req.Rid req.Opt) (d.Create req.Rid req.Opt)
      else
        match req.Req with
        | some rq => finish (.CreateDirect rq req.Opt) (d.CreateDirect rq req.Opt)
        | none =>
            ⟨[], [.any (NewErrorResult "param invalid: rid or req" [CodeInvalidParam])], false⟩

/-- The handler `GetTask`. -/
def GetTask (d : Downloader Task Req Opt Cfg Settings)
    (marshal : Task → Option (List Nat)) (r : Request) :
    Handled (Call Req Opt Cfg Settings) (Written Task V) :=
  let taskId := r.vars "id"
  if taskId = "" then
    ⟨[], [.any (NewErrorResult "param invalid: id" [CodeInvalidParam])], false⟩
  else
    match d.GetTask taskId with
    | none => ⟨[.GetTask taskId], [.any (NewErrorResult "task not found" [CodeTaskNotFound])], false⟩
    | some task => ⟨[.GetTask taskId], [.ok (NewOkResult marshal task)], false⟩

/-- The `page` of `GetTasks`: the parsed query value, 1 when it does not
parse or is below 1. -/
def pageParam (pageStr : String) : Int :=
  match Atoi pageStr with
  | none => 1
  | some page => if page < 1 then 1 else page

/-- The `pageSize` of `GetTasks`: the parsed query value, 10 when it does not
parse or is below 1. -/
def pageSizeParam (pageSizeStr : String) : Int :=
  match Atoi pageSizeStr with
  | none => 10
  | some pageSize => if pageSize < 1 then 10 else pageSize

/-- The handler `GetTasks`. -/
def GetTasks (d : Downloader Task Req Opt Cfg Settings)
    (marshal : TasksResponse Task → Option (List Nat)) (r : Request) :
    Handled (Call Req Opt Cfg Settings) (Written (TasksResponse Task) V) :=
  let pageStr := r.query "page"
  let pageSizeStr := r.query "pageSize"
  let page := pageParam pageStr
  let pageSize := pageSizeParam pageSizeStr
  match parseFilter r with
  | .error errResult => ⟨[], [.any errResult], false⟩
  | .ok filter =>
      let tasks := d.GetTasksByFilter filter
      let totalTasks : Int := tasks.length
      let start := wrapInt (wrapInt (page - 1) * pageSize)
      let endPos := wrapInt (start + pageSize)
      let start := if start > totalTasks then totalTasks else start
      let endPos := if endPos > totalTasks then totalTasks else endPos
      match goSlice tasks start endPos with
      | none => ⟨[.GetTasksByFilter filter], [], true⟩
      | some paginatedTasks =>
          let response : TasksResponse Task :=
            { tasks := paginatedTasks,
              total := totalTasks,
              page := page,
              pageSize := pageSize,
              totalPages := goDiv (wrapInt (wrapInt (totalTasks + pageSize) - 1)) pageSize }
          ⟨[.GetTasksByFilter filter], [.ok (NewOkResult marshal response)], false⟩

/-- The handler `PutConfig`. -/
def PutConfig (d : Downloader Task Req Opt Cfg Settings)
    (enc : V → Option (List Nat)) (rj : ReadJson Cfg (Written Unit V)) :
    Handled (Call Req Opt Cfg Settings) (Written Unit V) :=
  match rj with
  | .decoded cfg =>
      match d.PutConfig cfg with
      | some err => ⟨[.PutConfig cfg], [.any (NewErrorResult err [])], false⟩
      | none => ⟨[.PutConfig cfg], [.any (NewNilResult enc)], false⟩
  | .failed wrote => ⟨[], wrote ++ [.any (NewNilResult enc)], false⟩

/-- The handler `UpdateExtensionSettings`. -/
def UpdateExtensionSettings (d : Downloader Task Req Opt Cfg Settings)
    (enc : V → Option (List Nat)) (r : Request)
    (rj : ReadJson (UpdateExtensionSettingsReq Settings) (Written Unit V)) :
    Handled (Call Req Opt Cfg Settings) (Written Unit V) :=
  let identity := r.vars "identity"
  match rj with
  | .decoded req =>
      match d.UpdateExtensionSettings identity req.Settings with
      | some err =>
          ⟨[.UpdateExtensionSettings identity req.Settings], [.any (NewErrorResult err [])], false⟩
      | none =>
          ⟨[.UpdateExtensionSettings identity req.Settings], [.any (NewNilResult enc)], false⟩
  | .failed wrote => ⟨[], wrote ++ [.any (NewNilResult enc)], false⟩

/-- The handler `SwitchExtension`. -/
def SwitchExtension (d : Downloader Task Req Opt Cfg Settings)
    (enc : V → Option (List Nat)) (r : Request)
    (rj : ReadJson SwitchExtensionReq (Written Unit V)) :
    Handled (Call Req Opt Cfg Settings) (Written Unit V) :=
  let identity := r.vars "identity"
  match rj with
  | .decoded switchExtension =>
      match d.SwitchExtension identity switchExtension.Status with
      | some err =>
          ⟨[.SwitchExtension identity switchExtension.Status], [.any (NewErrorResult err [])], false⟩
      | none =>
          ⟨[.SwitchExtension identity switchExtension.Status], [.any (NewNilResult enc)], false⟩
  | .failed wrote => ⟨[], wrote ++ [.any (NewNilResult enc)], false⟩

/-- The handler `Resolve`, a sibling of the three handlers above that also
reads a body: everything it does is inside `if ReadJson(...)`. -/
def Resolve {Resolved : Type} (resolve : Req → Except String Resolved)
    (marshal : Resolved → Option (List Nat)) (rj : ReadJson Req (Written Resolved V)) :
    List (Written Resolved V) :=
  match rj with
  | .decoded req =>
      match resolve req with
      | .error err => [.any (NewErrorResult err [])]
      | .ok rr => [.ok (NewOkResult marshal rr)]
  | .failed wrote => wrote

/-! ### The relay `DoProxy` -/

/-- Go's `http.Header`, a map from a header name to its values: an
association list with one entry per name. -/
abbrev Header := List (String × List String)

/-- The values stored under the name `k`, `none` when the map has no entry. -/
def Header.values (h : Header) (k : String) : Option (List String) :=
  (h.find? fun e => e.1 == k).map fun e => e.2

/-- The bytes that may occur in a header name (`validHeaderFieldByte`): the
letters, the digits and the characters ``!#$%&'*+-.^_`|~``. -/
def validHeaderFieldByte (c : Char) : Bool :=
  c.isAlphanum || [33, 35, 36, 37, 38, 39, 42, 43, 45, 46, 94, 95, 96, 124, 126].contains c.toNat

/-- The case conversion of `CanonicalMIMEHeaderKey`: upper case for the first
letter and after each dash, lower case for the other letters. -/
def canonicalCase : Bool → List Char → List Char
  | _, [] => []
  | upper, c :: cs =>
      let c1 := if upper && c.isLower then c.toUpper
                else if !upper && c.isUpper then c.toLower else c
      c1 :: canonicalCase (c1 == '-') cs

/-- Go's `textproto.CanonicalMIMEHeaderKey`: a name with a byte that is not
valid in a header name is returned unchanged. -/
def CanonicalMIMEHeaderKey (s : String) : String :=
  if s.toList.all validHeaderFieldByte then String.mk (canonicalCase true s.toList) else s

/-- The map assignment `h[key] = vs`: the entry of `key` is replaced, or a
new entry is added when the map has none. -/
def Header.put (h : Header) (key : String) (vs : List String) : Header :=
  match h with
  | [] => [(key, vs)]
  | e :: rest => if e.1 == key then (key, vs) :: rest else e :: Header.put rest key vs

/-- Go's `Header.Set`: the entry of the canonical name is replaced by the
single value `v`. -/
def Header.Set (h : Header) (k v : String) : Header :=
  h.put (CanonicalMIMEHeaderKey k) [v]

/-- The state of an `http.ResponseWriter`: the header map `w.Header()`, the
status code and header sent by the first `WriteHeader`, and the body. -/
structure ResponseWriter where
  header : Header
  status : Option Nat
  sentHeader : Header
  body : List Nat
deriving DecidableEq, Repr

/-- The method `WriteHeader`, for the status code of a final response: only
the first call sends the status line and the header. -/
def ResponseWriter.WriteHeader (w : ResponseWriter) (statusCode : Nat) : ResponseWriter :=
  match w.status with
  | some _ => w
  | none => { w with status := some statusCode, sentHeader := w.header }

/-- The method `Write`: a write before any `WriteHeader` sends status 200. -/
def ResponseWriter.Write (w : ResponseWriter) (buf : List Nat) : ResponseWriter :=
  let w1 := w.WriteHeader 200
  { w1 with body := w1.body ++ buf }

/-- The bytes of a Go string. -/
def stringBytes (s : String) : List Nat :=
  s.toUTF8.toList.map fun b => b.toNat

/-- The function `writeError`. -/
def writeError (w : ResponseWriter) (msg : String) : ResponseWriter :=
  (w.WriteHeader 500).Write (stringBytes msg)

/-- The upstream response `resp` returned by `http.DefaultClient.Do`: its
header with the names in iteration order, its status code, and the outcome
of `io.ReadAll(resp.Body)`. -/
structure UpstreamResponse where
  Header : Header
  StatusCode : Nat
  Body : Except String (List Nat)

/-- The two loops of `DoProxy` over `resp.Header`. -/
def copyHeader (h : Header) (upstream : Header) : Header :=
  upstream.foldl (fun acc kvv => kvv.2.foldl (fun acc2 v => Header.Set acc2 kvv.1 v) acc) h

/-- The handler `DoProxy`; `target` is the request header `X-Target-Uri`,
`parse` stands for `url.Parse` and `send` for `http.DefaultClient.Do` on the
rewritten request. -/
def DoProxy {Url : Type} (parse : String → Except String Url)
    (send : Url → Except String UpstreamResponse)
    (w : ResponseWriter) (target : String) : ResponseWriter :=
  if target = "" then
    writeError w "param invalid: X-Target-Uri"
  else
    match parse target with
    | .error err => writeError w err
    | .ok targetUrl =>
        match send targetUrl with
        | .error err => writeError w err
        | .ok resp =>
            let w1 := { w with header := copyHeader w.header resp.Header }
            let w2 := w1.WriteHeader resp.StatusCode
            match resp.Body with
            | .error err => writeError w2 err
            | .ok buf => w2.Write buf

/-! ## Fixtures for the concrete runs -/

/-- An engine that holds the given tasks and returns all of them for every
filter; every other operation succeeds. -/
def engineWith {Task : Type} (tasks : List Task) : Downloader Task String Unit Unit Unit where
  Create := fun rid _ => .ok ("task-of-" ++ rid)
  CreateDirect := fun req _ => .ok ("direct-" ++ req)
  GetTask := fun _ => tasks.head?
  GetTasksByFilter := fun _ => tasks
  PutConfig := fun _ => none
  UpdateExtensionSettings := fun _ _ => none
  SwitchExtension := fun _ _ => none

/-- The request `GET /tasks?page=..&pageSize=..` without filter values. -/
def pagingRequest (page pageSize : String) : Request where
  vars := fun _ => ""
  query := fun k => if k = "page" then page else if k = "pageSize" then pageSize else ""
  form := .ok fun k => if k = "page" then [page] else if k = "pageSize" then [pageSize] else []

/-- The request of a route with the variable `id`. -/
def idRequest (id : String) : Request where
  vars := fun k => if k = "id" then id else ""
  query := fun _ => ""
  form := .ok fun _ => []

/-- An upstream that answers every URL with `resp`. -/
def upstreamWith (resp : UpstreamResponse) : String → Except String UpstreamResponse :=
  fun _ => .ok resp

/-- A response writer on which nothing has been set or written. -/
def freshWriter : ResponseWriter := ⟨[], none, [], []⟩

end Handlers

/-! ## Properties of the result envelope -/

theorem Sum256_length (data : List Nat) : (Sum256 data).length = 32 := by
  simp [Sum256, word32Bytes]

theorem hexDigit_mem (n : Nat) (h : n < 16) : hexDigit n ∈ "0123456789abcdef".toList := by
  interval_cases n <;> decide

theorem hexEncodeToString_length (bs : List Nat) :
    (hexEncodeToString bs).length = 2 * bs.length := by
  simp only [hexEncodeToString, String.length]
  induction bs with
  | nil => rfl
  | cons b bs ih => simp [List.flatMap_cons, ih]; omega

theorem hexEncodeToString_lowercase (bs : List Nat) :
    ∀ c ∈ (hexEncodeToString bs).toList, c ∈ "0123456789abcdef".toList := by
  intro c hc
  simp only [hexEncodeToString, String.toList, List.mem_flatMap] at hc
  obtain ⟨b, _, hb⟩ := hc
  simp only [List.mem_cons, List.mem_singleton, List.not_mem_nil, or_false] at hb
  rcases hb with rfl | rfl
  · exact hexDigit_mem _ (Nat.mod_lt _ (by decide))
  · exact hexDigit_mem _ (Nat.mod_lt _ (by decide))

set_option maxRecDepth 100000 in
/-- The model of `sha256.Sum256` on the test vector `abc` of FIPS 180-4. -/
theorem Sum256_abc :
    hexEncodeToString (Sum256 [97, 98, 99]) =
      "ba7816bf8f01cfea414140de5dae2223b00361a396177a9cb410ff61f20015ad" := by
  rfl

theorem generateHash_of_bytes {T : Type} (marshal : T → Option (List Nat)) (d : T)
    (bytes : List Nat) (h : marshal d = some bytes) :
    generateHash marshal d = hexEncodeToString (Sum256 bytes) := by
  simp [generateHash, h]

set_option maxRecDepth 100000 in
theorem generateHash_nil {V : Type} (enc : V → Option (List Nat)) :
    generateHash (jsonMarshal enc) none =
      "74234e98afe7498fb5daf1f36ac2d78acc339464f950703b8c019892f982b90b" := by
  rfl

/-- C4: `NewOkResult(d)` has Code = CodeOk = 0, an empty Msg, Data = d and
Hash = generateHash(d); when the payload serializes to `bytes` the hash is
the hex encoding of the SHA-256 digest of `bytes`, 64 characters long, all of
them lowercase hexadecimal digits; when serialization fails the hash is
empty; and a payload (of any type) with the same serialized bytes gets the
same hash. -/
theorem NewOkResult_envelope {T : Type} (marshal : T → Option (List Nat)) (d : T) :
    (NewOkResult marshal d).Code = CodeOk ∧ CodeOk = 0 ∧
    (NewOkResult marshal d).Msg = "" ∧
    (NewOkResult marshal d).Data = d ∧
    (NewOkResult marshal d).Hash = generateHash marshal d ∧
    (∀ bytes, marshal d = some bytes →
      generateHash marshal d = hexEncodeToString (Sum256 bytes) ∧
      (generateHash marshal d).length = 64 ∧
      ∀ c ∈ (generateHash marshal d).toList, c ∈ "0123456789abcdef".toList) ∧
    (marshal d = none → generateHash marshal d = "") ∧
    (∀ (T2 : Type) (marshal2 : T2 → Option (List Nat)) (d2 : T2),
      marshal2 d2 = marshal d →
      (NewOkResult marshal2 d2).Hash = (NewOkResult marshal d).Hash) := by
  refine ⟨rfl, rfl, rfl, rfl, rfl, ?_, ?_, ?_⟩
  · intro bytes h
    rw [generateHash_of_bytes marshal d bytes h]
    refine ⟨rfl, ?_, hexEncodeToString_lowercase _⟩
    rw [hexEncodeToString_length, Sum256_length]
  · intro h
    simp [generateHash, h]
  · intro T2 marshal2 d2 h
    simp [NewOkResult, generateHash, h]

set_option maxRecDepth 100000 in
/-- C4 at a concrete payload: the nil payload serializes to `null`, and the
envelope carries the SHA-256 of these four bytes, as does any payload that
serializes to the same bytes. -/
theorem NewOkResult_envelope_witness :
    jsonMarshal (fun (_ : Unit) => none) none = some [110, 117, 108, 108] ∧
    (NewOkResult (jsonMarshal fun (_ : Unit) => none) none).Hash =
      "74234e98afe7498fb5daf1f36ac2d78acc339464f950703b8c019892f982b90b" ∧
    (NewOkResult (jsonMarshal fun (_ : Unit) => none) none).Hash.length = 64 ∧
    (NewOkResult (fun (_ : String) => some [110, 117, 108, 108]) "x").Hash =
      (NewOkResult (jsonMarshal fun (_ : Unit) => none) none).Hash :=
  have h := NewOkResult_envelope (jsonMarshal fun (_ : Unit) => none) none
  ⟨rfl, h.2.2.2.2.1.trans (generateHash_nil _),
    h.2.2.2.2.1 ▸ (h.2.2.2.2.2.1 _ rfl).2.1,
    h.2.2.2.2.2.2.2 String (fun _ => some [110, 117, 108, 108]) "x" rfl⟩

set_option maxRecDepth 100000 in
/-- C5 fails for `NewNilResult()` and for `NewOkResult(nil)`: the Hash of
both envelopes is the 64-character digest of the JSON text `null`, not the
empty string. -/
theorem NewNilResult_hash_not_empty :
    (NewNilResult fun (_ : Unit) => none).Data = none ∧
    (NewNilResult fun (_ : Unit) => none).Hash =
      "74234e98afe7498fb5daf1f36ac2d78acc339464f950703b8c019892f982b90b" ∧
    (NewNilResult fun (_ : Unit) => none).Hash ≠ "" ∧
    (NewOkResult (jsonMarshal fun (_ : Unit) => none) none).Hash ≠ "" := by
  refine ⟨rfl, rfl, ?_, ?_⟩ <;> decide

/-- C5, amended: every envelope of `NewNilResult()`, `NewErrorResult(msg,
code...)` and `NewOkResult(nil)` has Data nil; the Hash of an error envelope
is the empty string, while the Hash of `NewNilResult()` and of
`NewOkResult(nil)` is `generateHash(nil)`, the 64-character hex SHA-256
digest of the JSON text `null`, which is not empty. -/
theorem nil_data_envelopes {V : Type} (enc : V → Option (List Nat)) (msg : String)
    (code : List RespCode) :
    (NewErrorResult msg code : Result (Option V)).Data = none ∧
    (NewErrorResult msg code : Result (Option V)).Hash = "" ∧
    (NewNilResult enc).Data = none ∧
    (NewOkResult (jsonMarshal enc) none).Data = none ∧
    (NewNilResult enc).Hash = generateHash (jsonMarshal enc) none ∧
    (NewOkResult (jsonMarshal enc) none).Hash = generateHash (jsonMarshal enc) none ∧
    generateHash (jsonMarshal enc) none =
      "74234e98afe7498fb5daf1f36ac2d78acc339464f950703b8c019892f982b90b" ∧
    (generateHash (jsonMarshal enc) none).length = 64 ∧
    generateHash (jsonMarshal enc) none ≠ "" := by
  refine ⟨rfl, rfl, rfl, rfl, rfl, rfl, generateHash_nil enc, ?_, ?_⟩
  · rw [generateHash_nil enc]; decide
  · rw [generateHash_nil enc]; decide

/-! ## Properties of the task handlers -/

section HandlerProperties

variable {Task Req Opt Cfg Settings V : Type}

/-- C6: on a decoded request body, a non-empty `rid` makes `CreateTask` call
exactly `Create(rid, opt)`, also when `req` is set; an empty `rid` with `req`
set makes it call exactly `CreateDirect(req, opt)`; with neither it calls
nothing and writes an error envelope with Code CodeInvalidParam = 1002. After
a call, the answer is `NewOkResult(taskId)` when the engine succeeds and an
error envelope with Code CodeError = 1000 and the engine's message when it
fails. -/
theorem CreateTask_input_selection (d : Downloader Task Req Opt Cfg Settings)
    (marshal : String → Option (List Nat)) (req : CreateTaskReq Req Opt) :
    (req.Rid ≠ "" →
      (CreateTask d marshal (.decoded req) : Handled _ (Written String V)).calls =
        [.Create req.Rid req.Opt] ∧
      (∀ rq o, Call.CreateDirect rq o ∉
        (CreateTask d marshal (.decoded req) : Handled _ (Written String V)).calls) ∧
      (∀ taskId, d.Create req.Rid req.Opt = .ok taskId →
        (CreateTask d marshal (.decoded req) : Handled _ (Written String V)).written =
          [.ok (NewOkResult marshal taskId)]) ∧
      (∀ err, d.Create req.Rid req.Opt = .error err →
        ∃ e : Result (Option V),
          (CreateTask d marshal (.decoded req)).written = [.any e] ∧
          e.Code = CodeError ∧ e.Code = 1000 ∧ e.Msg = err)) ∧
    (req.Rid = "" → ∀ rq, req.Req = some rq →
      (CreateTask d marshal (.decoded req) : Handled _ (Written String V)).calls =
        [.CreateDirect rq req.Opt] ∧
      (∀ rid o, Call.Create rid o ∉
        (CreateTask d marshal (.decoded req) : Handled _ (Written String V)).calls) ∧
      (∀ taskId, d.CreateDirect rq req.Opt = .ok taskId →
        (CreateTask d marshal (.decoded req) : Handled _ (Written String V)).written =
          [.ok (NewOkResult marshal taskId)]) ∧
      (∀ err, d.CreateDirect rq req.Opt = .error err →
        ∃ e : Result (Option V),
          (CreateTask d marshal (.decoded req)).written = [.any e] ∧
          e.Code = CodeError ∧ e.Code = 1000 ∧ e.Msg = err)) ∧
    (req.Rid = "" → req.Req = none →
      (CreateTask d marshal (.decoded req) : Handled _ (Written String V)).calls = [] ∧
      ∃ e : Result (Option V),
        (CreateTask d marshal (.decoded req)).written = [.any e] ∧
        e.Code = CodeInvalidParam ∧ e.Code = 1002) := by
  refine ⟨?_, ?_, ?_⟩
  · intro hrid
    refine ⟨?_, ?_, ?_, ?_⟩
    · simp only [CreateTask, hrid, ne_eq, not_false_eq_true, if_true]
      cases d.Create req.Rid req.Opt <;> rfl
    · intro rq o
      simp only [CreateTask, hrid, ne_eq, not_false_eq_true, if_true]
      cases d.Create req.Rid req.Opt <;> simp
    · intro taskId h
      simp only [CreateTask, hrid, ne_eq, not_false_eq_true, if_true, h]
    · intro err h
      refine ⟨NewErrorResult err [], ?_, rfl, rfl, rfl⟩
      simp only [CreateTask, hrid, ne_eq, not_false_eq_true, if_true, h]
  · intro hrid rq hreq
    refine ⟨?_, ?_, ?_, ?_⟩
    · simp only [CreateTask, hrid, hreq, ne_eq, not_true_eq_false, if_false]
      cases d.CreateDirect rq req.Opt <;> rfl
    · intro rid o
      simp only [CreateTask, hrid, hreq, ne_eq, not_true_eq_false, if_false]
      cases d.CreateDirect rq req.Opt <;> simp
    · intro taskId h
      simp only [CreateTask, hrid, hreq, ne_eq, not_true_eq_false, if_false, h]
    · intro err h
      refine ⟨NewErrorResult err [], ?_, rfl, rfl, rfl⟩
      simp only [CreateTask, hrid, hreq, ne_eq, not_true_eq_false, if_false, h]
  · intro hrid hreq
    refine ⟨?_, NewErrorResult "param invalid: rid or req" [CodeInvalidParam], ?_, rfl, rfl⟩
    · simp only [CreateTask, hrid, hreq, ne_eq, not_true_eq_false, if_false]
    · simp only [CreateTask, hrid, hreq, ne_eq, not_true_eq_false, if_false]

/-- C7: `GetTask` answers an empty path id with Code CodeInvalidParam = 1002
without calling the engine, an id the engine does not know with Code
CodeTaskNotFound = 2001, and an id whose task the engine returns with
`NewOkResult(task)`, Code 0; the three codes are pairwise distinct. -/
theorem GetTask_outcomes (d : Downloader Task Req Opt Cfg Settings)
    (marshal : Task → Option (List Nat)) (r : Request) :
    (r.vars "id" = "" →
      (GetTask d marshal r : Handled _ (Written Task V)).calls = [] ∧
      ∃ e : Result (Option V),
        (GetTask d marshal r).written = [.any e] ∧
        e.Code = CodeInvalidParam ∧ e.Code = 1002) ∧
    (r.vars "id" ≠ "" → d.GetTask (r.vars "id") = none →
      (GetTask d marshal r : Handled _ (Written Task V)).calls = [.GetTask (r.vars "id")] ∧
      ∃ e : Result (Option V),
        (GetTask d marshal r).written = [.any e] ∧
        e.Code = CodeTaskNotFound ∧ e.Code = 2001) ∧
    (r.vars "id" ≠ "" → ∀ t, d.GetTask (r.vars "id") = some t →
      (GetTask d marshal r : Handled _ (Written Task V)).calls = [.GetTask (r.vars "id")] ∧
      (GetTask d marshal r : Handled _ (Written Task V)).written =
        [.ok (NewOkResult marshal t)] ∧
      (NewOkResult marshal t).Code = 0) ∧
    CodeInvalidParam ≠ CodeTaskNotFound ∧ CodeInvalidParam ≠ CodeOk ∧
    CodeTaskNotFound ≠ CodeOk := by
  refine ⟨?_, ?_, ?_, by decide, by decide, by decide⟩
  · intro hid
    refine ⟨?_, NewErrorResult "param invalid: id" [CodeInvalidParam], ?_, rfl, rfl⟩ <;>
      simp only [GetTask, hid, if_true]
  · intro hid hnone
    refine ⟨?_, NewErrorResult "task not found" [CodeTaskNotFound], ?_, rfl, rfl⟩ <;>
      simp only [GetTask, hid, hnone, if_false]
  · intro hid t ht
    refine ⟨?_, ?_, rfl⟩ <;> simp only [GetTask, hid, ht, if_false]

/-- C10 fails on the code: when `ReadJson` reports a body that could not be
decoded, `PutConfig`, `UpdateExtensionSettings` and `SwitchExtension` make no
engine call, but each of them goes on to write `NewNilResult()`, an envelope
with Code = CodeOk = 0, after whatever `ReadJson` wrote; the sibling handlers
`Resolve` and `CreateTask` write nothing of their own. -/
theorem malformed_body_answered_ok (d : Downloader Task Req Opt Cfg Settings)
    (enc : V → Option (List Nat)) (r : Request) (wrote : List (Written Unit V)) :
    (PutConfig d enc (.failed wrote)).calls = [] ∧
    (PutConfig d enc (.failed wrote)).written = wrote ++ [.any (NewNilResult enc)] ∧
    (UpdateExtensionSettings d enc r (.failed wrote)).calls = [] ∧
    (UpdateExtensionSettings d enc r (.failed wrote)).written =
      wrote ++ [.any (NewNilResult enc)] ∧
    (SwitchExtension d enc r (.failed wrote)).calls = [] ∧
    (SwitchExtension d enc r (.failed wrote)).written = wrote ++ [.any (NewNilResult enc)] ∧
    (Written.any (NewNilResult enc) : Written Unit V).code = CodeOk ∧ CodeOk = 0 ∧
    (∀ (marshal : String → Option (List Nat)) (wrote2 : List (Written String V)),
      (CreateTask d marshal (.failed wrote2)).written = wrote2) ∧
    (∀ (Resolved : Type) (resolve : Req → Except String Resolved)
      (marshal : Resolved → Option (List Nat)) (wrote2 : List (Written Resolved V)),
      Resolve resolve marshal (.failed wrote2) = wrote2) :=
  ⟨rfl, rfl, rfl, rfl, rfl, rfl, rfl, rfl, fun _ _ => rfl, fun _ _ _ _ => rfl⟩

end HandlerProperties

/-! ## Properties of `GetTasks` -/

section GetTasksProperties

variable {Task Req Opt Cfg Settings V : Type}

theorem wrapInt_of_fits (x : Int) (h1 : -9223372036854775808 ≤ x)
    (h2 : x < 9223372036854775808) : wrapInt x = x := by
  unfold wrapInt; omega

theorem atoiDigits_fits (neg : Bool) (ds : List Char) (n : Int)
    (h : atoiDigits neg ds = some n) :
    -9223372036854775808 ≤ n ∧ n < 9223372036854775808 := by
  unfold atoiDigits at h
  split at h
  · exact absurd h (by simp)
  · split at h
    · exact absurd h (by simp)
    · split at h
      · split at h
        · simp only [Option.some.injEq] at h; omega
        · exact absurd h (by simp)
      · split at h
        · simp only [Option.some.injEq] at h; omega
        · exact absurd h (by simp)

theorem Atoi_fits (s : String) (n : Int) (h : Atoi s = some n) :
    -9223372036854775808 ≤ n ∧ n < 9223372036854775808 := by
  unfold Atoi at h
  split at h <;> exact atoiDigits_fits _ _ n h

theorem pageParam_fits (s : String) :
    1 ≤ pageParam s ∧ pageParam s < 9223372036854775808 := by
  unfold pageParam
  split
  · decide
  · rename_i page h
    have := Atoi_fits s page h
    split <;> omega

theorem pageSizeParam_fits (s : String) :
    1 ≤ pageSizeParam s ∧ pageSizeParam s < 9223372036854775808 := by
  unfold pageSizeParam
  split
  · decide
  · rename_i pageSize h
    have := Atoi_fits s pageSize h
    split <;> omega

theorem goSlice_clamped {α : Type} (tasks : List α) (start size : Int) (h0 : 0 ≤ start)
    (h1 : 1 ≤ size) :
    goSlice tasks (if start > (tasks.length : Int) then (tasks.length : Int) else start)
      (if start + size > (tasks.length : Int) then (tasks.length : Int) else start + size) =
      some ((tasks.drop start.toNat).take size.toNat) := by
  obtain ⟨a, rfl⟩ := Int.eq_ofNat_of_zero_le h0
  obtain ⟨b, rfl⟩ := Int.eq_ofNat_of_zero_le (by omega : (0 : Int) ≤ size)
  unfold goSlice
  by_cases hs : (a : Int) > (tasks.length : Int)
  · have hd : tasks.drop a = [] := List.drop_eq_nil_of_le (by omega)
    have hd2 : tasks.drop tasks.length = [] := List.drop_eq_nil_of_le (le_refl _)
    have he : (a : Int) + (b : Int) > (tasks.length : Int) := by omega
    simp only [hs, he, if_true, Int.toNat_ofNat, hd, hd2, List.take_nil]
    simp
  · by_cases he : (a : Int) + (b : Int) > (tasks.length : Int)
    · simp only [hs, he, if_true, if_false, Int.toNat_ofNat]
      have hle : (0 : Int) ≤ a ∧ (a : Int) ≤ tasks.length ∧ (tasks.length : Int) ≤ tasks.length := by
        omega
      rw [if_pos hle]
      congr 1
      rw [List.take_of_length_le (by simp), List.take_of_length_le (by simp; omega)]
    · simp only [hs, he, if_false, Int.toNat_ofNat]
      have hle : (0 : Int) ≤ a ∧ (a : Int) ≤ a + b ∧ (a : Int) + b ≤ tasks.length := by omega
      rw [if_pos hle]
      congr 2
      omega

/-- Within the range of `int`, that is when `page * pageSize` does not exceed
the largest `int`, `GetTasks` queries the engine once with the parsed filter
and answers with one OK envelope that carries the `pageSize` tasks from index
`(page-1)*pageSize` on (fewer or none at the end of the list), the filtered
count, and the effective `page` and `pageSize`. -/
theorem GetTasks_in_range (d : Downloader Task Req Opt Cfg Settings)
    (marshal : TasksResponse Task → Option (List Nat)) (r : Request)
    (form : String → List String) (hform : r.form = .ok form)
    (hfit : (pageParam (r.query "page") - 1) * pageSizeParam (r.query "pageSize") +
      pageSizeParam (r.query "pageSize") < 9223372036854775808) :
    (GetTasks d marshal r : Handled _ (Written (TasksResponse Task) V)) =
      ⟨[.GetTasksByFilter ⟨form "id", convertStatues (form "status"),
          convertStatues (form "notStatus")⟩],
       [.ok (NewOkResult marshal
          { tasks := ((d.GetTasksByFilter ⟨form "id", convertStatues (form "status"),
                convertStatues (form "notStatus")⟩).drop
              ((pageParam (r.query "page") - 1) * pageSizeParam (r.query "pageSize")).toNat).take
              (pageSizeParam (r.query "pageSize")).toNat,
            total := (d.GetTasksByFilter ⟨form "id", convertStatues (form "status"),
                convertStatues (form "notStatus")⟩).length,
            page := pageParam (r.query "page"),
            pageSize := pageSizeParam (r.query "pageSize"),
            totalPages := goDiv (wrapInt (wrapInt
              (((d.GetTasksByFilter ⟨form "id", convertStatues (form "status"),
                convertStatues (form "notStatus")⟩).length : Int) +
                pageSizeParam (r.query "pageSize")) - 1))
              (pageSizeParam (r.query "pageSize")) })],
       false⟩ := by
  have hp := pageParam_fits (r.query "page")
  have hs := pageSizeParam_fits (r.query "pageSize")
  have hnn : 0 ≤ (pageParam (r.query "page") - 1) * pageSizeParam (r.query "pageSize") :=
    Int.mul_nonneg (by omega) (by omega)
  generalize hst : (pageParam (r.query "page") - 1) * pageSizeParam (r.query "pageSize") = st
    at hfit hnn
  have hw1 : wrapInt (pageParam (r.query "page") - 1) = pageParam (r.query "page") - 1 :=
    wrapInt_of_fits _ (by omega) (by omega)
  have hw2 : wrapInt st = st := wrapInt_of_fits _ (by omega) (by omega)
  have hw3 : wrapInt (st + pageSizeParam (r.query "pageSize")) =
      st + pageSizeParam (r.query "pageSize") := wrapInt_of_fits _ (by omega) (by omega)
  simp only [GetTasks, parseFilter, hform, hw1, hst, hw2, hw3]
  rw [goSlice_clamped _ st _ hnn hs.1]

/-- The `totalPages` expression of `GetTasks` is the ceiling of `n /
pageSize` whenever `n + pageSize` does not exceed the largest `int`. -/
theorem totalPages_in_range (n : Nat) (pageSize : Int) (h1 : 1 ≤ pageSize)
    (hfit : (n : Int) + pageSize ≤ 9223372036854775808) :
    goDiv (wrapInt (wrapInt ((n : Int) + pageSize) - 1)) pageSize =
      ((n : Int) + pageSize - 1) / pageSize ∧
    ((n : Int) ≤ (((n : Int) + pageSize - 1) / pageSize) * pageSize) ∧
    (∀ k : Int, (n : Int) ≤ k * pageSize → ((n : Int) + pageSize - 1) / pageSize ≤ k) := by
  have ha : (0 : Int) ≤ (n : Int) + pageSize - 1 := by omega
  have hq0 : 0 ≤ ((n : Int) + pageSize - 1) / pageSize := Int.ediv_nonneg ha (by omega)
  have hdm := Int.ediv_add_emod ((n : Int) + pageSize - 1) pageSize
  have hm0 := Int.emod_nonneg ((n : Int) + pageSize - 1) (by omega : pageSize ≠ 0)
  have hm1 := Int.emod_lt_of_pos ((n : Int) + pageSize - 1) (by omega : 0 < pageSize)
  have hcomm : pageSize * (((n : Int) + pageSize - 1) / pageSize) =
      (((n : Int) + pageSize - 1) / pageSize) * pageSize := Int.mul_comm _ _
  have hqle : ((n : Int) + pageSize - 1) / pageSize ≤
      (((n : Int) + pageSize - 1) / pageSize) * pageSize :=
    le_mul_of_one_le_right hq0 h1
  refine ⟨?_, by omega, ?_⟩
  · unfold goDiv
    have hw : wrapInt (wrapInt ((n : Int) + pageSize) - 1) = (n : Int) + pageSize - 1 := by
      unfold wrapInt; omega
    rw [hw, Int.tdiv_eq_ediv ha (by omega)]
    exact wrapInt_of_fits _ (by omega) (by omega)
  · intro k hk
    by_contra hlt
    have h2 : (k + 1) * pageSize ≤ (((n : Int) + pageSize - 1) / pageSize) * pageSize :=
      Int.mul_le_mul_of_nonneg_right (by omega) (by omega)
    have h3 : (k + 1) * pageSize = k * pageSize + pageSize := by ring
    omega

end GetTasksProperties

/-! ## `strconv.Atoi` on decimal numerals -/

theorem digitVal_digitChar (m : Nat) (h : m < 10) : digitVal (Nat.digitChar m) = some m := by
  interval_cases m <;> rfl

theorem parseDigits_append (l m : List Char) (a : Nat) :
    parseDigits (l ++ m) a = (parseDigits l a).bind (parseDigits m) := by
  induction l generalizing a with
  | nil => rfl
  | cons c cs ih =>
      simp only [List.cons_append, parseDigits]
      cases digitVal c with
      | none => rfl
      | some v => exact ih _

theorem parseDigits_toDigitsCore (fuel : Nat) :
    ∀ (n : Nat) (ds : List Char), n < fuel →
      ∃ (l : List Char) (k : Nat), Nat.toDigitsCore 10 fuel n ds = l ++ ds ∧ l ≠ [] ∧
        ∀ a, parseDigits l a = some (a * 10 ^ k + n) := by
  induction fuel with
  | zero => intro n ds h; omega
  | succ fuel ih =>
      intro n ds h
      by_cases h0 : n / 10 = 0
      · refine ⟨[Nat.digitChar (n % 10)], 1, ?_, by simp, ?_⟩
        · simp [Nat.toDigitsCore, h0]
        · intro a
          have hm : n % 10 = n := by omega
          have hd := digitVal_digitChar (n % 10) (Nat.mod_lt _ (by decide))
          rw [hm] at hd
          simp only [parseDigits, hm, hd, pow_one]
      · obtain ⟨l, k, hl, hne, hp⟩ := ih (n / 10) (Nat.digitChar (n % 10) :: ds) (by omega)
        refine ⟨l ++ [Nat.digitChar (n % 10)], k + 1, ?_, by simp, ?_⟩
        · simp [Nat.toDigitsCore, h0, hl]
        · intro a
          rw [parseDigits_append, hp a]
          simp only [Option.some_bind, parseDigits,
            digitVal_digitChar (n % 10) (Nat.mod_lt _ (by decide)), Option.some.injEq]
          have := Nat.div_add_mod n 10
          rw [pow_succ]
          nlinarith

theorem atoiDigits_toDigits (n : Nat) :
    atoiDigits false (Nat.toDigits 10 n) =
      if n < 9223372036854775808 then some (n : Int) else none := by
  obtain ⟨l, k, hl, hne, hp⟩ := parseDigits_toDigitsCore (n + 1) n [] (by omega)
  rw [List.append_nil] at hl
  have h0 := hp 0
  simp only [zero_mul, zero_add] at h0
  unfold Nat.toDigits
  rw [hl]
  unfold atoiDigits
  split
  · exact absurd rfl hne
  · simp [h0]

/-- The decimal numeral of a natural number below 2^63 is parsed by
`strconv.Atoi` to that number, and the numeral of a larger number is a range
error. -/
theorem Atoi_toString (n : Nat) :
    Atoi (toString n) = if n < 9223372036854775808 then some (n : Int) else none := by
  obtain ⟨l, k, hl, hne, hp⟩ := parseDigits_toDigitsCore (n + 1) n [] (by omega)
  rw [List.append_nil] at hl
  have h0 := hp 0
  have hs : (toString n).toList = Nat.toDigits 10 n := rfl
  have hl2 : Nat.toDigits 10 n = l := hl
  unfold Atoi
  rw [hs]
  split
  · rename_i rest heq
    rw [hl2] at heq
    rw [heq] at h0
    simp [parseDigits, digitVal] at h0
  · rename_i rest heq
    rw [hl2] at heq
    rw [heq] at h0
    simp [parseDigits, digitVal] at h0
  · exact atoiDigits_toDigits n

section GetTasksRuns

variable {Task Req Opt Cfg Settings V : Type}

/-- The end-to-end example of the specification: five tasks, `page=2` and
`pageSize=2` give the tasks at indices 2 and 3, `total=5`, `totalPages=3`. -/
theorem GetTasks_second_page (marshal : TasksResponse String → Option (List Nat)) :
    (GetTasks (engineWith ["t0", "t1", "t2", "t3", "t4"]) marshal (pagingRequest "2" "2") :
      Handled _ (Written (TasksResponse String) Unit)) =
      ⟨[.GetTasksByFilter ⟨[], [], []⟩],
       [.ok (NewOkResult marshal ⟨["t2", "t3"], 5, 2, 2, 3⟩)], false⟩ := by
  rfl

/-- C1 fails on the code: with `page=4294967297` and `pageSize=4294967296`
the product `(page-1)*pageSize` is 2^64, which the 64-bit `int` holds as 0,
so `GetTasks` answers with all five tasks, where the claim (start = 2^64 is
at least N = 5) asks for the empty list. -/
theorem GetTasks_start_wraps_to_zero (marshal : TasksResponse String → Option (List Nat)) :
    (GetTasks (engineWith ["t0", "t1", "t2", "t3", "t4"]) marshal
        (pagingRequest "4294967297" "4294967296") :
      Handled _ (Written (TasksResponse String) Unit)) =
      ⟨[.GetTasksByFilter ⟨[], [], []⟩],
       [.ok (NewOkResult marshal
          ⟨["t0", "t1", "t2", "t3", "t4"], 5, 4294967297, 4294967296, 1⟩)], false⟩ ∧
    pageParam "4294967297" = 4294967297 ∧ pageSizeParam "4294967296" = 4294967296 ∧
    (5 : Int) ≤ (4294967297 - 1) * 4294967296 := by
  refine ⟨rfl, rfl, rfl, by decide⟩

/-- C2 fails on the code: with `page=4611686018427387905` and `pageSize=2`
the product `(page-1)*pageSize` is 2^63, which the 64-bit `int` holds as
-2^63; neither clamp applies to a negative bound, the slice expression
`tasks[start:end]` panics and no envelope is written. -/
theorem GetTasks_panics_on_wrapped_start
    (marshal : TasksResponse String → Option (List Nat)) :
    (GetTasks (engineWith ["t0", "t1", "t2", "t3", "t4"]) marshal
        (pagingRequest "4611686018427387905" "2") :
      Handled _ (Written (TasksResponse String) Unit)) =
      ⟨[.GetTasksByFilter ⟨[], [], []⟩], [], true⟩ ∧
    pageParam "4611686018427387905" = 4611686018427387905 ∧ pageSizeParam "2" = 2 ∧
    wrapInt (wrapInt (4611686018427387905 - 1) * 2) = -9223372036854775808 ∧
    goSlice ["t0", "t1", "t2", "t3", "t4"] (-9223372036854775808) (-9223372036854775806) =
      none := by
  refine ⟨rfl, rfl, rfl, by decide, by decide⟩

/-- C3 fails on the code: with two tasks and `pageSize=9223372036854775807`,
the largest `int`, the sum `totalTasks + pageSize` exceeds the 64-bit `int`
and `totalPages` is -1, where the ceiling of 2 / pageSize is 1. -/
theorem GetTasks_totalPages_negative (marshal : TasksResponse String → Option (List Nat)) :
    (GetTasks (engineWith ["t0", "t1"]) marshal (pagingRequest "1" "9223372036854775807") :
      Handled _ (Written (TasksResponse String) Unit)) =
      ⟨[.GetTasksByFilter ⟨[], [], []⟩],
       [.ok (NewOkResult marshal ⟨["t0", "t1"], 2, 1, 9223372036854775807, -1⟩)], false⟩ ∧
    pageSizeParam "9223372036854775807" = 9223372036854775807 ∧
    ((2 : Int) + 9223372036854775807 - 1) / 9223372036854775807 = 1 := by
  refine ⟨rfl, rfl, by decide⟩

/-- C8: the effective `page` is the integer value of the query string when
`strconv.Atoi` parses it and the value is at least 1, and 1 otherwise; the
effective `pageSize` likewise, with 10 as the default; in particular the
decimal numeral of a number from 1 to the largest `int` gives that number;
every OK envelope that
`GetTasks` writes carries the two effective values, and it writes exactly one
such envelope whenever the form parses and `page * pageSize` fits in an
`int`. -/
theorem GetTasks_param_defaults (d : Downloader Task Req Opt Cfg Settings)
    (marshal : TasksResponse Task → Option (List Nat)) (r : Request) :
    (∀ s n, Atoi s = some n → 1 ≤ n → pageParam s = n ∧ pageSizeParam s = n) ∧
    (∀ s n, Atoi s = some n → n < 1 → pageParam s = 1 ∧ pageSizeParam s = 10) ∧
    (∀ s, Atoi s = none → pageParam s = 1 ∧ pageSizeParam s = 10) ∧
    (∀ n : Nat, 1 ≤ n → n < 9223372036854775808 →
      pageParam (toString n) = n ∧ pageSizeParam (toString n) = n) ∧
    (∀ res, Written.ok res ∈
        (GetTasks d marshal r : Handled _ (Written (TasksResponse Task) V)).written →
      res.Data.page = pageParam (r.query "page") ∧
      res.Data.pageSize = pageSizeParam (r.query "pageSize")) ∧
    (∀ form, r.form = .ok form →
      (pageParam (r.query "page") - 1) * pageSizeParam (r.query "pageSize") +
        pageSizeParam (r.query "pageSize") < 9223372036854775808 →
      ∃ res, (GetTasks d marshal r : Handled _ (Written (TasksResponse Task) V)).written =
          [.ok res] ∧
        res.Code = CodeOk ∧
        res.Data.page = pageParam (r.query "page") ∧
        res.Data.pageSize = pageSizeParam (r.query "pageSize")) := by
  refine ⟨?_, ?_, ?_, ?_, ?_, ?_⟩
  · intro s n h h1
    have hn : ¬ n < 1 := by omega
    simp [pageParam, pageSizeParam, h, hn]
  · intro s n h h1
    simp [pageParam, pageSizeParam, h, h1]
  · intro s h
    simp [pageParam, pageSizeParam, h]
  · intro n h1 h2
    have hn : ¬ (n : Int) < 1 := by omega
    simp [pageParam, pageSizeParam, Atoi_toString, h2, hn]
  · intro res hres
    simp only [GetTasks] at hres
    split at hres
    · simp at hres
    · split at hres
      · simp at hres
      · simp only [List.mem_singleton, Written.ok.injEq] at hres
        subst hres
        exact ⟨rfl, rfl⟩
  · intro form hform hfit
    rw [GetTasks_in_range d marshal r form hform hfit]
    exact ⟨_, rfl, rfl, rfl, rfl⟩

/-- C8 at concrete query values: `page=3` and `pageSize=abc` give the
effective values 3 and 10 in the response. -/
theorem GetTasks_param_defaults_witness :
    pageParam "3" = 3 ∧ pageSizeParam "abc" = 10 ∧ pageParam "0" = 1 ∧ pageParam "-4" = 1 ∧
    pageParam "" = 1 ∧ pageSizeParam "" = 10 ∧ pageSizeParam "25" = 25 ∧
    ∃ res, (GetTasks (engineWith ["t0", "t1"]) (fun _ => none) (pagingRequest "3" "abc") :
        Handled _ (Written (TasksResponse String) Unit)).written = [.ok res] ∧
      res.Code = CodeOk ∧ res.Data.page = 3 ∧ res.Data.pageSize = 10 :=
  have h := GetTasks_param_defaults (V := Unit) (engineWith ["t0", "t1"]) (fun _ => none)
    (pagingRequest "3" "abc")
  ⟨(h.1 "3" 3 (by decide) (by decide)).1, (h.2.2.1 "abc" (by decide)).2,
    (h.2.1 "0" 0 (by decide) (by decide)).1, (h.2.1 "-4" (-4) (by decide) (by decide)).1,
    (h.2.2.1 "" (by decide)).1, (h.2.2.1 "" (by decide)).2,
    (h.1 "25" 25 (by decide) (by decide)).2,
    h.2.2.2.2.2 _ rfl (by decide)⟩

end GetTasksRuns

/-! ## Concrete runs of the task handlers -/

/-- C6 at a concrete request with both `rid` and `req` set: only `Create` is
called and the answer is the OK envelope of the task id. -/
theorem CreateTask_input_selection_witness :
    ("r1" : String) ≠ "" ∧
    (CreateTask (engineWith ([] : List String)) (fun _ => none)
        (.decoded ⟨"r1", some "http://example.com/f", ()⟩) :
      Handled _ (Written String Unit)).calls = [.Create "r1" ()] ∧
    (CreateTask (engineWith ([] : List String)) (fun _ => none)
        (.decoded ⟨"r1", some "http://example.com/f", ()⟩) :
      Handled _ (Written String Unit)).written =
        [.ok (NewOkResult (fun _ => none) "task-of-r1")] ∧
    (CreateTask (engineWith ([] : List String)) (fun _ => none)
        (.decoded ⟨"", some "http://example.com/f", ()⟩) :
      Handled _ (Written String Unit)).calls = [.CreateDirect "http://example.com/f" ()] ∧
    (CreateTask (engineWith ([] : List String)) (fun _ => none) (.decoded ⟨"", none, ()⟩) :
      Handled _ (Written String Unit)).calls = [] :=
  have h := CreateTask_input_selection (V := Unit) (engineWith ([] : List String))
    (fun _ => none) ⟨"r1", some "http://example.com/f", ()⟩
  have h2 := CreateTask_input_selection (V := Unit) (engineWith ([] : List String))
    (fun _ => none) ⟨"", some "http://example.com/f", ()⟩
  have h3 := CreateTask_input_selection (V := Unit) (engineWith ([] : List String))
    (fun _ => none) ⟨"", none, ()⟩
  ⟨by decide, (h.1 (by decide)).1, (h.1 (by decide)).2.2.1 _ rfl,
    (h2.2.1 rfl _ rfl).1, (h3.2.2 rfl rfl).1⟩

/-- C7 at concrete requests: an empty id, an id the engine does not know, and
an id the engine knows. -/
theorem GetTask_outcomes_witness :
    (GetTask (engineWith ["t0"]) (fun _ => none) (idRequest "") :
      Handled _ (Written String Unit)).calls = [] ∧
    (GetTask (engineWith ([] : List String)) (fun _ => none) (idRequest "x") :
      Handled _ (Written String Unit)).calls = [.GetTask "x"] ∧
    (GetTask (engineWith ["t0"]) (fun _ => none) (idRequest "x") :
      Handled _ (Written String Unit)).written = [.ok (NewOkResult (fun _ => none) "t0")] :=
  have h1 := GetTask_outcomes (V := Unit) (engineWith ["t0"]) (fun _ => none) (idRequest "")
  have h2 := GetTask_outcomes (V := Unit) (engineWith ([] : List String)) (fun _ => none)
    (idRequest "x")
  have h3 := GetTask_outcomes (V := Unit) (engineWith ["t0"]) (fun _ => none) (idRequest "x")
  ⟨(h1.1 rfl).1, (h2.2.1 (by decide) rfl).1, (h3.2.2.1 (by decide) "t0" rfl).2.1⟩

/-! ## Properties of the relay -/

/-- C9 fails on the code: an upstream response with the two values `a=1` and
`b=2` under `Set-Cookie` is relayed with the single value `b=2`, because each
value is stored with `Header.Set`, which replaces the values stored before;
the status code 200 is relayed unchanged. -/
theorem DoProxy_keeps_last_value_only :
    (DoProxy (fun s => Except.ok s)
      (upstreamWith ⟨[("Set-Cookie", ["a=1", "b=2"]), ("Content-Type", ["text/plain"])], 200,
        .ok [104, 105]⟩) freshWriter "http://example.com/") =
      ⟨[("Set-Cookie", ["b=2"]), ("Content-Type", ["text/plain"])], some 200,
       [("Set-Cookie", ["b=2"]), ("Content-Type", ["text/plain"])], [104, 105]⟩ ∧
    Header.values (DoProxy (fun s => Except.ok s)
      (upstreamWith ⟨[("Set-Cookie", ["a=1", "b=2"]), ("Content-Type", ["text/plain"])], 200,
        .ok [104, 105]⟩) freshWriter "http://example.com/").sentHeader "Set-Cookie" =
      some ["b=2"] := by
  decide


theorem Header_values_put (h : Header) (key : String) (vs : List String) (k2 : String) :
    (h.put key vs).values k2 = if k2 = key then some vs else h.values k2 := by
  induction h with
  | nil =>
      by_cases hk : k2 = key
      · subst hk; simp [Header.put, Header.values]
      · have hk2 : ¬ key = k2 := fun e => hk e.symm
        simp [Header.put, Header.values, hk, hk2]
  | cons e rest ih =>
      by_cases he : e.1 = key
      · by_cases hk : k2 = key
        · subst hk; simp [Header.put, Header.values, he]
        · have hk2 : ¬ key = k2 := fun e => hk e.symm
          simp [Header.put, Header.values, he, hk, hk2]
      · by_cases hk : e.1 = k2
        · have hk3 : ¬ k2 = key := fun e2 => he (hk.trans e2)
          simp [Header.put, Header.values, he, hk, hk3]
        · simp only [Header.put, beq_iff_eq, he, if_false]
          have := ih
          simp only [Header.values] at this ⊢
          have hb : (e.1 == k2) = false := by simp [hk]
          simp only [List.find?_cons, hb]
          exact this

/-- After the inner loop of `DoProxy` over the values `vv` of the name `k`,
the header holds the last value of `vv` alone under the canonical name, and
is unchanged under every other name and when `vv` is empty. -/
theorem Header_values_set_each (vv : List String) (h : Header) (k k2 : String) :
    (vv.foldl (fun acc v => Header.Set acc k v) h).values k2 =
      match vv.getLast? with
      | some v => if k2 = CanonicalMIMEHeaderKey k then some [v] else h.values k2
      | none => h.values k2 := by
  induction vv generalizing h with
  | nil => rfl
  | cons v vs ih =>
      rw [List.foldl_cons, ih]
      cases vs with
      | nil => simp [Header.Set, Header_values_put]
      | cons v2 vs2 =>
          rw [List.getLast?_cons_cons]
          cases hl : (v2 :: vs2).getLast? with
          | none => simp at hl
          | some x =>
              simp only [Header.Set, Header_values_put]
              split <;> rfl

theorem copyHeader_values_untouched (up : Header) (h : Header) (key : String)
    (hno : ∀ e ∈ up, CanonicalMIMEHeaderKey e.1 ≠ key) :
    (copyHeader h up).values key = h.values key := by
  induction up generalizing h with
  | nil => rfl
  | cons e rest ih =>
      have h1 : (copyHeader h (e :: rest)) =
          copyHeader (e.2.foldl (fun acc v => Header.Set acc e.1 v) h) rest := rfl
      rw [h1, ih _ (fun e2 he2 => hno e2 (List.mem_cons_of_mem _ he2)), Header_values_set_each]
      have hne : ¬ key = CanonicalMIMEHeaderKey e.1 :=
        fun e2 => hno e (List.mem_cons_self _ _) e2.symm
      split
      · simp [hne]
      · rfl

/-- What the two loops of `DoProxy` leave under a header name: for an
upstream entry `(k, vv)` with at least one value, and no other entry under
the same canonical name, the copied header holds exactly the last value of
`vv`. -/
theorem copyHeader_values (up : Header) (h : Header) (k : String) (vv : List String)
    (hmem : (k, vv) ∈ up) (hne : vv ≠ [])
    (huniq : ∀ e ∈ up, CanonicalMIMEHeaderKey e.1 = CanonicalMIMEHeaderKey k → e = (k, vv)) :
    (copyHeader h up).values (CanonicalMIMEHeaderKey k) = some [vv.getLast hne] := by
  induction up generalizing h with
  | nil => simp at hmem
  | cons e rest ih =>
      have h1 : (copyHeader h (e :: rest)) =
          copyHeader (e.2.foldl (fun acc v => Header.Set acc e.1 v) h) rest := rfl
      rw [h1]
      by_cases hin : (k, vv) ∈ rest
      · exact ih _ hin (fun e2 he2 => huniq e2 (List.mem_cons_of_mem _ he2))
      · have he : e = (k, vv) := by
          rcases List.mem_cons.mp hmem with h2 | h2
          · exact h2.symm
          · exact absurd h2 hin
        rw [copyHeader_values_untouched rest _ _ (fun e2 he2 hc =>
          hin (huniq e2 (List.mem_cons_of_mem _ he2) hc ▸ he2)), Header_values_set_each]
        subst he
        simp only [List.getLast?_eq_getLast _ hne, if_true]

/-- The status code and the header that `DoProxy` relays when the upstream
answers: the status code of the upstream response, and under the name of an
upstream entry `(k, vv)` the last value of `vv` alone. -/
theorem DoProxy_relays {Url : Type} (parse : String → Except String Url)
    (send : Url → Except String UpstreamResponse) (w : ResponseWriter) (target : String)
    (url : Url) (resp : UpstreamResponse) (hw : w.status = none) (ht : target ≠ "")
    (hp : parse target = .ok url) (hs : send url = .ok resp) :
    (DoProxy parse send w target).status = some resp.StatusCode ∧
    (DoProxy parse send w target).sentHeader = copyHeader w.header resp.Header ∧
    ∀ k vv (hne : vv ≠ []), (k, vv) ∈ resp.Header →
      (∀ e ∈ resp.Header, CanonicalMIMEHeaderKey e.1 = CanonicalMIMEHeaderKey k → e = (k, vv)) →
      (DoProxy parse send w target).sentHeader.values (CanonicalMIMEHeaderKey k) =
        some [vv.getLast hne] := by
  have key : (DoProxy parse send w target).status = some resp.StatusCode ∧
      (DoProxy parse send w target).sentHeader = copyHeader w.header resp.Header := by
    simp only [DoProxy, ht, if_false, hp, hs]
    cases resp.Body <;>
      simp [writeError, ResponseWriter.Write, ResponseWriter.WriteHeader, hw]
  refine ⟨key.1, key.2, ?_⟩
  intro k vv hne hmem huniq
  rw [key.2]
  exact copyHeader_values _ _ k vv hmem hne huniq

end Gopeed
